import Mathlib

/-!
Shallow embedding of `edit_dataset.py`: three dataset classes
(`EpicEditDataset`, `EditDataset`, `EditDatasetEval`) that slice a manifest
into train/val/test splits by floor-rounded proportions and return
normalized, jointly cropped/flipped image tensors.

Modelling conventions:
* Proportions (`splits`, `flip_prob`) are exact rationals `ℚ`.
* A decoded image (`PIL.Image` → `np.array`, dtype uint8) is a
  height × width × channel grid of naturals in `0..255`.
* A tensor after `rearrange "h w c -> c h w"` is channel × height × width
  of rationals.
* Each `torch.randint(lo, hi, ())` draw is `lo + r % (hi - lo)` where `r`
  is a fresh natural supplied by an explicit random-choice record, and it
  errors when `hi ≤ lo`, as torch does.
* `PIL.Image.resize` (LANCZOS resampling, external library code) is an
  abstract parameter `resize : ℕ → ImageHWC → ImageHWC`; theorems that
  need its shape or byte-range guarantees take them as hypotheses.
* File contents (`seeds.json`, `prompt.json`, `.jpg` files) are supplied
  by explicit filesystem records; Python exceptions become `Except`.
-/

/-- Error outcomes a dataset method can raise. -/
inductive DsError where
  | assertError
  | indexError
  | randintError
  | cropError
  deriving DecidableEq, Repr

/-- The valid values asserted by `assert split in ("train", "val", "test")`. -/
def splitValid (split : String) : Prop :=
  split = "train" ∨ split = "val" ∨ split = "test"

instance (split : String) : Decidable (splitValid split) := by
  unfold splitValid; infer_instance

/-- Python slice index resolution for `l[a:b]`: negative indices count from
the end, and everything is clamped into `[0, n]`. -/
def pyIdx (n : ℕ) (i : ℤ) : ℕ :=
  if i < 0 then ((n : ℤ) + i).toNat else min i.toNat n

/-- Python list slice `l[a:b]`. -/
def pySlice {α : Type} (l : List α) (a b : ℤ) : List α :=
  (l.take (pyIdx l.length b)).drop (pyIdx l.length a)

/-- The pair `(split_0, split_1)` from the dict
`{"train": (0.0, splits[0]), "val": (splits[0], splits[0]+splits[1]),
"test": (splits[0]+splits[1], 1.0)}[split]`. -/
def splitBounds (split : String) (splits : ℚ × ℚ × ℚ) : ℚ × ℚ :=
  if split = "train" then (0, splits.1)
  else if split = "val" then (splits.1, splits.1 + splits.2.1)
  else (splits.1 + splits.2.1, 1)

/-- `idx_0 = math.floor(split_0 * len(l))`, `idx_1 = math.floor(split_1 * len(l))`. -/
def splitIndices (split : String) (splits : ℚ × ℚ × ℚ) (n : ℕ) : ℤ × ℤ :=
  (Int.floor ((splitBounds split splits).1 * n),
   Int.floor ((splitBounds split splits).2 * n))

/-- The manifest slice `l[idx_0:idx_1]` kept by a constructor. -/
def constructSlice {α : Type} (split : String) (splits : ℚ × ℚ × ℚ) (l : List α) : List α :=
  pySlice l (splitIndices split splits l.length).1 (splitIndices split splits l.length).2

/-- `EpicEditDataset._index_to_img_fn`: Python format `f'frame_{index:010d}.jpg'`
(LENGTH_FRAME_ID = 10); zero-pads the decimal representation to width 10. -/
def zfill (w : ℕ) (s : String) : String :=
  String.mk (List.replicate (w - s.length) '0') ++ s

/-- LENGTH_FRAME_ID class constant. -/
def LENGTH_FRAME_ID : ℕ := 10

/-- `EpicEditDataset._index_to_img_fn(index)`. -/
def indexToImgFn (index : ℕ) : String :=
  "frame_" ++ zfill LENGTH_FRAME_ID (Nat.repr index) ++ ".jpg"

/-- Decoded image: rows of columns of pixels, each pixel a channel list of bytes. -/
abbrev ImageHWC := List (List (List ℕ))

/-- Tensor after `rearrange "h w c -> c h w"`: channels of rows of rationals. -/
abbrev TensorCHW := List (List (List ℚ))

/-- Pixel normalization `2 * v / 255 - 1` applied elementwise by
`2 * torch.tensor(np.array(img)).float() / 255 - 1`. -/
def normPix (v : ℕ) : ℚ := 2 * (v : ℚ) / 255 - 1

/-- Number of channels of an h×w×c grid (length of its first pixel). -/
def numChannels (img : ImageHWC) : ℕ := ((img.headD []).headD []).length

/-- `rearrange "h w c -> c h w"`: transpose the channel axis outward. -/
def transposeHWC (img : ImageHWC) : List (List (List ℕ)) :=
  (List.range (numChannels img)).map
    (fun c => img.map (fun row => row.map (fun px => px.getD c 0)))

/-- `rearrange(2 * torch.tensor(np.array(img)).float() / 255 - 1, "h w c -> c h w")`. -/
def toTensor (img : ImageHWC) : TensorCHW :=
  (transposeHWC img).map (fun ch => ch.map (fun row => row.map normPix))

/-- Height of a CHW tensor as torchvision sees it (size of dim -2). -/
def tensorHeight (t : TensorCHW) : ℕ := (t.headD []).length

/-- Width of a CHW tensor as torchvision sees it (size of dim -1). -/
def tensorWidth (t : TensorCHW) : ℕ := ((t.headD []).headD []).length

/-- Crop a CHW tensor to `size × size` starting at `(top, left)`. -/
def cropCHW (top left size : ℕ) (t : TensorCHW) : TensorCHW :=
  t.map (fun ch => ((ch.drop top).take size).map (fun row => (row.drop left).take size))

/-- Horizontal flip of a CHW tensor (reverse the width axis). -/
def flipH (t : TensorCHW) : TensorCHW := t.map (fun ch => ch.map List.reverse)

/-- `RandomHorizontalFlip` outcome: flip iff the Bernoulli draw fired. -/
def flipCHW (b : Bool) (t : TensorCHW) : TensorCHW := if b then flipH t else t

/-- `torch.chunk(t, 2)` on the channel dim: two chunks of size ⌈len/2⌉. -/
def chunkHalf (t : TensorCHW) : TensorCHW × TensorCHW :=
  (t.take ((t.length + 1) / 2), t.drop ((t.length + 1) / 2))

/-- One valuation of the random draws made during a single `__getitem__` call. -/
structure Rng where
  seedChoice : ℕ
  resizeChoice : ℕ
  cropTopChoice : ℕ
  cropLeftChoice : ℕ
  flipdraw : ℚ
  deriving DecidableEq, Repr

/-- `torch.randint(lo, hi, ()).item()`: errors when the range is empty,
otherwise a value in `[lo, hi)` determined by the draw `r`. -/
def randint (lo hi : ℕ) (r : ℕ) : Except DsError ℕ :=
  if hi ≤ lo then .error .randintError else .ok (lo + r % (hi - lo))

/-- Lines 81-83 / 153-155: `RandomCrop(crop_res)` then
`RandomHorizontalFlip(flip_prob)` applied to `torch.cat((t0, t1))`, then
`.chunk(2)`.  `RandomCrop` (pad_if_needed=False) fails when the input is
smaller than the crop size; otherwise the offsets are uniform draws. -/
def transformPair (crop_res : ℕ) (flip_prob : ℚ) (t0 t1 : TensorCHW) (rng : Rng) :
    Except DsError (TensorCHW × TensorCHW) :=
  let cat := t0 ++ t1
  let h := tensorHeight cat
  let w := tensorWidth cat
  if h < crop_res ∨ w < crop_res then .error .cropError
  else
    let top := rng.cropTopChoice % (h - crop_res + 1)
    let left := rng.cropLeftChoice % (w - crop_res + 1)
    let b := decide (rng.flipdraw < flip_prob)
    .ok (chunkHalf (flipCHW b (cropCHW top left crop_res cat)))

/-- A reconstructed row of `EPIC100_annotations.csv`
(participant_id, video_id, start_frame, stop_frame, narration). -/
structure MetaRow where
  part : String
  clip : String
  start : ℕ
  stop : ℕ
  narration : String
  deriving DecidableEq, Repr

/-- Fields of a constructed `EpicEditDataset`. -/
structure EpicState where
  basedir : String
  min_resize_res : ℕ
  max_resize_res : ℕ
  crop_res : ℕ
  flip_prob : ℚ
  metadata : List MetaRow
  deriving DecidableEq, Repr

/-- Fields of a constructed `EditDataset`. -/
structure EditState where
  path : String
  min_resize_res : ℕ
  max_resize_res : ℕ
  crop_res : ℕ
  flip_prob : ℚ
  seeds : List (String × List ℕ)
  deriving DecidableEq, Repr

/-- Fields of a constructed `EditDatasetEval`. -/
structure EvalState where
  path : String
  res : ℕ
  seeds : List (String × List ℕ)
  deriving DecidableEq, Repr

/-- On-disk content visible to `EpicEditDataset.__getitem__`: a decoded
image for each path (existence of the referenced files is assumed). -/
structure EpicFS where
  image : String → ImageHWC

/-- On-disk content visible to `EditDataset` / `EditDatasetEval` item
access, keyed by sample `name` (and `seed` for the image pairs):
`prompt.json` fields and the decoded `{seed}_0.jpg` / `{seed}_1.jpg`. -/
structure SeedFS where
  promptEdit : String → String
  promptInput : String → String
  promptOutput : String → String
  image0 : String → ℕ → ImageHWC
  image1 : String → ℕ → ImageHWC

/-- `EpicEditDataset.__init__` after the manifest has been loaded and
shuffled: `shuffled` is the post-`np.random.shuffle` metadata list (the
shuffle permutation is external randomness).  Runs the two asserts, then
keeps the floor-proportional slice for `split`. -/
def initEpic (basedir : String) (split : String) (splits : ℚ × ℚ × ℚ)
    (min_resize_res max_resize_res crop_res : ℕ) (flip_prob : ℚ)
    (shuffled : List MetaRow) : Except DsError EpicState :=
  if ¬ splitValid split then .error .assertError
  else if ¬ (splits.1 + splits.2.1 + splits.2.2 = 1) then .error .assertError
  else .ok { basedir, min_resize_res, max_resize_res, crop_res, flip_prob,
             metadata := constructSlice split splits shuffled }

/-- `EditDataset.__init__` after `seeds.json` has been parsed into
`seedsJson`: runs the two asserts, then keeps the floor-proportional slice. -/
def initEdit (path : String) (split : String) (splits : ℚ × ℚ × ℚ)
    (min_resize_res max_resize_res crop_res : ℕ) (flip_prob : ℚ)
    (seedsJson : List (String × List ℕ)) : Except DsError EditState :=
  if ¬ splitValid split then .error .assertError
  else if ¬ (splits.1 + splits.2.1 + splits.2.2 = 1) then .error .assertError
  else .ok { path, min_resize_res, max_resize_res, crop_res, flip_prob,
             seeds := constructSlice split splits seedsJson }

/-- `EditDatasetEval.__init__` after `seeds.json` has been parsed: runs the
two asserts, then keeps the floor-proportional slice. -/
def initEval (path : String) (split : String) (splits : ℚ × ℚ × ℚ) (res : ℕ)
    (seedsJson : List (String × List ℕ)) : Except DsError EvalState :=
  if ¬ splitValid split then .error .assertError
  else if ¬ (splits.1 + splits.2.1 + splits.2.2 = 1) then .error .assertError
  else .ok { path, res, seeds := constructSlice split splits seedsJson }

/-- The record `dict(edit=..., ...)['edit']` value: before-image tensor and
instruction text. -/
structure EditCond where
  c_concat : TensorCHW
  c_crossattn : String
  deriving DecidableEq, Repr

/-- The record returned by `EpicEditDataset.__getitem__` and
`EditDataset.__getitem__`. -/
structure EditSample where
  edited : TensorCHW
  edit : EditCond
  deriving DecidableEq, Repr

/-- The record returned by `EditDatasetEval.__getitem__`. -/
structure EvalSample where
  image_0 : TensorCHW
  input_prompt : String
  edit : String
  output_prompt : String
  deriving DecidableEq, Repr

/-- `EpicEditDataset.__getitem__(index)` with the LANCZOS `resize` passed
abstractly and the random draws in `rng`. -/
def getitemEpic (d : EpicState) (fs : EpicFS) (resize : ℕ → ImageHWC → ImageHWC)
    (index : ℕ) (rng : Rng) : Except DsError EditSample :=
  if h : index < d.metadata.length then
    let row := d.metadata.get ⟨index, h⟩
    let subdir := d.basedir ++ "/" ++ row.part ++ "/" ++ "agentago_frames" ++ "/" ++ row.clip
    let image_0 := fs.image (subdir ++ "/" ++ indexToImgFn row.start)
    let image_1 := fs.image (subdir ++ "/" ++ indexToImgFn row.stop)
    do
      let reize_res ← randint d.min_resize_res (d.max_resize_res + 1) rng.resizeChoice
      let t0 := toTensor (resize reize_res image_0)
      let t1 := toTensor (resize reize_res image_1)
      let pair ← transformPair d.crop_res d.flip_prob t0 t1 rng
      return { edited := pair.2, edit := { c_concat := pair.1, c_crossattn := row.narration } }
  else .error .indexError

/-- `EditDataset.__getitem__(i)` with the LANCZOS `resize` passed abstractly
and the random draws in `rng`. -/
def getitemEdit (d : EditState) (fs : SeedFS) (resize : ℕ → ImageHWC → ImageHWC)
    (i : ℕ) (rng : Rng) : Except DsError EditSample :=
  if h : i < d.seeds.length then
    let ns := d.seeds.get ⟨i, h⟩
    do
      let sIdx ← randint 0 ns.2.length rng.seedChoice
      let seed := ns.2.getD sIdx 0
      let prompt := fs.promptEdit ns.1
      let image_0 := fs.image0 ns.1 seed
      let image_1 := fs.image1 ns.1 seed
      let reize_res ← randint d.min_resize_res (d.max_resize_res + 1) rng.resizeChoice
      let t0 := toTensor (resize reize_res image_0)
      let t1 := toTensor (resize reize_res image_1)
      let pair ← transformPair d.crop_res d.flip_prob t0 t1 rng
      return { edited := pair.2, edit := { c_concat := pair.1, c_crossattn := prompt } }
  else .error .indexError

/-- `EditDatasetEval.__getitem__(i)`: reads `prompt.json` and only
`{seed}_0.jpg`, resizes by `torch.randint(res, res + 1, ())`, normalizes. -/
def getitemEval (d : EvalState) (fs : SeedFS) (resize : ℕ → ImageHWC → ImageHWC)
    (i : ℕ) (rng : Rng) : Except DsError EvalSample :=
  if h : i < d.seeds.length then
    let ns := d.seeds.get ⟨i, h⟩
    do
      let sIdx ← randint 0 ns.2.length rng.seedChoice
      let seed := ns.2.getD sIdx 0
      let edit := fs.promptEdit ns.1
      let input_prompt := fs.promptInput ns.1
      let output_prompt := fs.promptOutput ns.1
      let image_0 := fs.image0 ns.1 seed
      let reize_res ← randint d.res (d.res + 1) rng.resizeChoice
      return { image_0 := toTensor (resize reize_res image_0),
               input_prompt, edit, output_prompt }
  else .error .indexError

/-- `EpicEditDataset.__len__`, with the (unmodified) post-call state. -/
def lenEpicM (d : EpicState) : ℕ × EpicState := (d.metadata.length, d)

/-- `EditDataset.__len__`, with the (unmodified) post-call state. -/
def lenEditM (d : EditState) : ℕ × EditState := (d.seeds.length, d)

/-- `EditDatasetEval.__len__`, with the (unmodified) post-call state. -/
def lenEvalM (d : EvalState) : ℕ × EvalState := (d.seeds.length, d)

/-- `EpicEditDataset.__getitem__` as a method call: result together with the
post-call object state (the method body assigns no attribute). -/
def getitemEpicM (d : EpicState) (fs : EpicFS) (resize : ℕ → ImageHWC → ImageHWC)
    (index : ℕ) (rng : Rng) : Except DsError EditSample × EpicState :=
  (getitemEpic d fs resize index rng, d)

/-- `EditDataset.__getitem__` as a method call: result together with the
post-call object state (the method body assigns no attribute). -/
def getitemEditM (d : EditState) (fs : SeedFS) (resize : ℕ → ImageHWC → ImageHWC)
    (i : ℕ) (rng : Rng) : Except DsError EditSample × EditState :=
  (getitemEdit d fs resize i rng, d)

/-- `EditDatasetEval.__getitem__` as a method call: result together with the
post-call object state (the method body assigns no attribute). -/
def getitemEvalM (d : EvalState) (fs : SeedFS) (resize : ℕ → ImageHWC → ImageHWC)
    (i : ℕ) (rng : Rng) : Except DsError EvalSample × EvalState :=
  (getitemEval d fs resize i rng, d)

/-- A decoded image is an `h × w` grid whose pixels all have `c` channels. -/
def isGrid (h w c : ℕ) (img : ImageHWC) : Prop :=
  img.length = h ∧ ∀ row ∈ img, row.length = w ∧ ∀ px ∈ row, px.length = c

instance (h w c : ℕ) (img : ImageHWC) : Decidable (isGrid h w c img) := by
  unfold isGrid; infer_instance

/-- All bytes of a decoded image are in `0..255` (the uint8 invariant that
`np.array` of a PIL image guarantees, also after LANCZOS resampling). -/
def pixLE (img : ImageHWC) : Prop :=
  ∀ row ∈ img, ∀ px ∈ row, ∀ v ∈ px, v ≤ 255

instance (img : ImageHWC) : Decidable (pixLE img) := by
  unfold pixLE; infer_instance

/-- Every element of a CHW tensor satisfies `p`. -/
def tensorAll (p : ℚ → Prop) (t : TensorCHW) : Prop :=
  ∀ ch ∈ t, ∀ row ∈ ch, ∀ q ∈ row, p q

/-- The abstract `resize` returns an `r × r` image with `c` channels, as
`PIL.Image.resize((r, r))` does. -/
def resizeDims (c : ℕ) (resize : ℕ → ImageHWC → ImageHWC) : Prop :=
  ∀ r img, isGrid r r c (resize r img)

/-- The abstract `resize` returns uint8 data, i.e. bytes in `0..255`. -/
def resizeBytes (resize : ℕ → ImageHWC → ImageHWC) : Prop :=
  ∀ r img, pixLE (resize r img)

/-- A constant gray `r × r` image with `c` channels, used as concrete data. -/
def constImg (r c : ℕ) : ImageHWC :=
  List.replicate r (List.replicate r (List.replicate c 0))

/-- A concrete stand-in for `PIL.Image.resize((r, r))`: returns the constant
`r × r` image with `c` channels (shape-faithful to LANCZOS resampling). -/
def constResize (c : ℕ) : ℕ → ImageHWC → ImageHWC := fun r _ => constImg r c

/-- Concrete filesystem for the seed-manifest datasets. -/
def sampleSeedFS : SeedFS :=
  { promptEdit := fun _ => "make it snowy"
    promptInput := fun _ => "a photo"
    promptOutput := fun _ => "a snowy photo"
    image0 := fun _ _ => constImg 2 1
    image1 := fun _ _ => constImg 2 1 }

/-- The same filesystem with different after-images (`{seed}_1.jpg`). -/
def sampleSeedFSAlt : SeedFS := { sampleSeedFS with image1 := fun _ _ => constImg 3 1 }

/-- Concrete `EditDatasetEval` state: one manifest entry, `res = 1`. -/
def sampleEvalState : EvalState := { path := "p", res := 1, seeds := [("a", [7])] }

/-- Concrete `EditDataset` state with 1×1 resize and crop. -/
def sampleEditState : EditState :=
  { path := "p", min_resize_res := 1, max_resize_res := 1, crop_res := 1,
    flip_prob := 0, seeds := [("a", [7])] }

/-- Concrete `EpicEditDataset` state with 1×1 resize and crop. -/
def sampleEpicState : EpicState :=
  { basedir := "b", min_resize_res := 1, max_resize_res := 1, crop_res := 1,
    flip_prob := 0,
    metadata := [{ part := "P01", clip := "P01_01", start := 3, stop := 9,
                   narration := "open door" }] }

/-- Concrete filesystem for the EPIC dataset. -/
def sampleEpicFS : EpicFS := { image := fun _ => constImg 1 1 }

/-- Concrete random draws. -/
def sampleRng : Rng :=
  { seedChoice := 0, resizeChoice := 0, cropTopChoice := 0, cropLeftChoice := 0,
    flipdraw := 1 }

/-- An `EditDataset` state whose `crop_res` (3) exceeds the resize
resolution (2): every item access fails inside `RandomCrop` even though all
referenced files exist. -/
def cropFailState : EditState :=
  { path := "p", min_resize_res := 2, max_resize_res := 2, crop_res := 3,
    flip_prob := 0, seeds := [("a", [7])] }

/-- The item `EditDataset.__getitem__(0)` produces from the concrete data
above (all-zero 1×1 image, so every tensor entry is `normPix 0 = -1`). -/
def sampleEditOut : EditSample :=
  { edited := [[[-1]]], edit := { c_concat := [[[-1]]], c_crossattn := "make it snowy" } }

/-- The item `EpicEditDataset.__getitem__(0)` produces from the concrete
data above. -/
def sampleEpicOut : EditSample :=
  { edited := [[[-1]]], edit := { c_concat := [[[-1]]], c_crossattn := "open door" } }

/-- The item `EditDatasetEval.__getitem__(0)` produces from the concrete
data above. -/
def sampleEvalOut : EvalSample :=
  { image_0 := [[[-1]]], input_prompt := "a photo", edit := "make it snowy",
    output_prompt := "a snowy photo" }

/-- Normalization sends a byte in `0..255` into `[-1, 1]`. -/
theorem normPix_bounds {v : ℕ} (hv : v ≤ 255) : -1 ≤ normPix v ∧ normPix v ≤ 1 := by
  unfold normPix
  constructor
  · have h0 : (0 : ℚ) ≤ (v : ℚ) := by positivity
    have : (0 : ℚ) ≤ 2 * (v : ℚ) / 255 := by positivity
    linarith
  · have h255 : ((v : ℚ)) ≤ 255 := by exact_mod_cast hv
    have : 2 * (v : ℚ) / 255 ≤ 2 * (255 : ℚ) / 255 := by
      apply div_le_div_of_nonneg_right _ (by norm_num)
      linarith
    have h2 : 2 * (255 : ℚ) / 255 = 2 := by norm_num
    linarith [this, h2 ▸ this]

/-- Every element of `toTensor img` is `normPix` of a byte of `img` or of the
default `0`, hence bounded when the image is uint8 data. -/
theorem tensorAll_toTensor {img : ImageHWC} (hb : pixLE img) :
    tensorAll (fun q => -1 ≤ q ∧ q ≤ 1) (toTensor img) := by
  intro ch hch row hrow q hq
  unfold toTensor transposeHWC at hch
  simp only [List.mem_map, List.mem_range] at hch
  obtain ⟨ch0, ⟨c, _, rfl⟩, rfl⟩ := hch
  simp only [List.mem_map] at hrow
  obtain ⟨row0, hrow0, rfl⟩ := hrow
  simp only [List.mem_map] at hrow0 hq
  obtain ⟨row1, hrow1, rfl⟩ := hrow0
  obtain ⟨px, hpx, rfl⟩ := hq
  simp only [List.mem_map] at hpx
  obtain ⟨px0, hpx0, rfl⟩ := hpx
  apply normPix_bounds
  rcases Nat.lt_or_ge c px0.length with hc | hc
  · exact hb row1 hrow1 px0 hpx0 _ (List.getD_eq_getElem px0 0 hc ▸ px0.getElem_mem hc)
  · rw [List.getD_eq_default px0 0 hc]
    norm_num

/-- `tensorAll` is preserved by cropping. -/
theorem tensorAll_crop {p : ℚ → Prop} {t : TensorCHW} (h : tensorAll p t)
    (top left size : ℕ) : tensorAll p (cropCHW top left size t) := by
  intro ch hch row hrow q hq
  unfold cropCHW at hch
  simp only [List.mem_map] at hch
  obtain ⟨ch0, hch0, rfl⟩ := hch
  simp only [List.mem_map] at hrow
  obtain ⟨row0, hrow0, rfl⟩ := hrow
  exact h ch0 hch0 row0 (List.mem_of_mem_drop (List.mem_of_mem_take hrow0)) q
    (List.mem_of_mem_drop (List.mem_of_mem_take hq))

/-- `tensorAll` is preserved by the horizontal flip outcome. -/
theorem tensorAll_flip {p : ℚ → Prop} {t : TensorCHW} (h : tensorAll p t)
    (b : Bool) : tensorAll p (flipCHW b t) := by
  unfold flipCHW
  cases b
  · simpa using h
  · simp only [flipH, if_true]
    intro ch hch row hrow q hq
    simp only [List.mem_map] at hch
    obtain ⟨ch0, hch0, rfl⟩ := hch
    simp only [List.mem_map] at hrow
    obtain ⟨row0, hrow0, rfl⟩ := hrow
    exact h ch0 hch0 row0 hrow0 q (List.mem_reverse.mp hq)

/-- `tensorAll` on a concatenation. -/
theorem tensorAll_append {p : ℚ → Prop} {t0 t1 : TensorCHW}
    (h0 : tensorAll p t0) (h1 : tensorAll p t1) : tensorAll p (t0 ++ t1) := by
  intro ch hch
  rcases List.mem_append.mp hch with h | h
  · exact h0 ch h
  · exact h1 ch h

/-- `tensorAll` passes to both chunks. -/
theorem tensorAll_chunkHalf {p : ℚ → Prop} {t : TensorCHW} (h : tensorAll p t) :
    tensorAll p (chunkHalf t).1 ∧ tensorAll p (chunkHalf t).2 := by
  constructor
  · intro ch hch; exact h ch (List.mem_of_mem_take hch)
  · intro ch hch; exact h ch (List.mem_of_mem_drop hch)

/-- A successful `transformPair` preserves `tensorAll` from its two inputs. -/
theorem transformPair_tensorAll {p : ℚ → Prop} {crop_res : ℕ} {flip_prob : ℚ}
    {t0 t1 : TensorCHW} {rng : Rng} {pr : TensorCHW × TensorCHW}
    (h0 : tensorAll p t0) (h1 : tensorAll p t1)
    (hok : transformPair crop_res flip_prob t0 t1 rng = .ok pr) :
    tensorAll p pr.1 ∧ tensorAll p pr.2 := by
  by_cases hc : tensorHeight (t0 ++ t1) < crop_res ∨ tensorWidth (t0 ++ t1) < crop_res
  · simp [transformPair, hc] at hok
  · simp only [transformPair, hc, if_false] at hok
    rw [Except.ok.injEq] at hok
    subst hok
    exact tensorAll_chunkHalf
      (tensorAll_flip (tensorAll_crop (tensorAll_append h0 h1) _ _ _) _)

/-- Inversion for `Except` bind. -/
theorem exceptBind_ok {α β : Type} {x : Except DsError α} {f : α → Except DsError β}
    {b : β} : x >>= f = .ok b ↔ ∃ a, x = .ok a ∧ f a = .ok b := by
  cases x <;> simp [Bind.bind, Except.bind]

/-- Inversion for `randint`. -/
theorem randint_ok {lo hi r v : ℕ} :
    randint lo hi r = .ok v ↔ lo < hi ∧ v = lo + r % (hi - lo) := by
  unfold randint
  split <;> simp <;> omega

/-- Evaluation of `splitBounds` at the three valid split names. -/
theorem splitBounds_eval (s : ℚ × ℚ × ℚ) :
    splitBounds "train" s = (0, s.1) ∧ splitBounds "val" s = (s.1, s.1 + s.2.1)
    ∧ splitBounds "test" s = (s.1 + s.2.1, 1) := by
  refine ⟨rfl, ?_, ?_⟩ <;> rfl

/-- `pyIdx` on an index already in `[0, n]` is plain `toNat`. -/
theorem pyIdx_eq_toNat {n : ℕ} {i : ℤ} (h0 : 0 ≤ i) (h : i ≤ n) :
    pyIdx n i = i.toNat := by
  unfold pyIdx
  rw [if_neg (by omega)]
  omega

/-- Glueing the two cuts of a list back together. -/
theorem take_drop_glue {α : Type} (l : List α) (aN bN : ℕ) (hab : aN ≤ bN) :
    l.take aN ++ (l.take bN).drop aN ++ l.drop bN = l := by
  have h1 : (l.take bN).take aN = l.take aN := by
    rw [List.take_take, min_eq_left hab]
  calc l.take aN ++ (l.take bN).drop aN ++ l.drop bN
      = (l.take bN).take aN ++ (l.take bN).drop aN ++ l.drop bN := by rw [h1]
    _ = l.take bN ++ l.drop bN := by rw [List.take_append_drop]
    _ = l := List.take_append_drop bN l

/-- Claim C1: for every manifest list and nonnegative split proportions
summing to 1, the slices kept by the three constructors — train
`[0, ⌊s0·n⌋)`, val `[⌊s0·n⌋, ⌊(s0+s1)·n⌋)`, test `[⌊(s0+s1)·n⌋, ⌊1·n⌋)` —
partition the manifest: the boundary indices agree (no gap), the three
index ranges are pairwise disjoint, and the concatenation of the slices in
order train, val, test equals the whole list. -/
theorem claim_C1 {α : Type} (l : List α) (s : ℚ × ℚ × ℚ)
    (h0 : 0 ≤ s.1) (h1 : 0 ≤ s.2.1) (h2 : 0 ≤ s.2.2)
    (hsum : s.1 + s.2.1 + s.2.2 = 1) :
    constructSlice "train" s l ++ constructSlice "val" s l
      ++ constructSlice "test" s l = l
    ∧ (splitIndices "train" s l.length).1 = 0
    ∧ (splitIndices "val" s l.length).1 = (splitIndices "train" s l.length).2
    ∧ (splitIndices "test" s l.length).1 = (splitIndices "val" s l.length).2
    ∧ (splitIndices "test" s l.length).2 = (l.length : ℤ)
    ∧ 0 ≤ (splitIndices "train" s l.length).2
    ∧ (splitIndices "train" s l.length).2 ≤ (splitIndices "val" s l.length).2
    ∧ (splitIndices "val" s l.length).2 ≤ (l.length : ℤ)
    ∧ Disjoint (Finset.Ico (0 : ℤ) (splitIndices "train" s l.length).2)
        (Finset.Ico (splitIndices "val" s l.length).1 (splitIndices "val" s l.length).2)
    ∧ Disjoint (Finset.Ico (splitIndices "val" s l.length).1 (splitIndices "val" s l.length).2)
        (Finset.Ico (splitIndices "test" s l.length).1 ((l.length : ℤ)))
    ∧ Disjoint (Finset.Ico (0 : ℤ) (splitIndices "train" s l.length).2)
        (Finset.Ico (splitIndices "test" s l.length).1 ((l.length : ℤ))) := by
  obtain ⟨hbt, hbv, hbs⟩ := splitBounds_eval s
  set n := l.length with hn
  have hs1le : s.1 ≤ 1 := by linarith
  have hs12ge : 0 ≤ s.1 + s.2.1 := by linarith
  have hs12le : s.1 + s.2.1 ≤ 1 := by linarith
  have hnn : (0 : ℚ) ≤ (n : ℚ) := by positivity
  -- the four floor indices
  have hit : splitIndices "train" s n = (Int.floor ((0 : ℚ) * n), Int.floor (s.1 * n)) := by
    unfold splitIndices; rw [hbt]
  have hiv : splitIndices "val" s n = (Int.floor (s.1 * n), Int.floor ((s.1 + s.2.1) * n)) := by
    unfold splitIndices; rw [hbv]
  have his : splitIndices "test" s n = (Int.floor ((s.1 + s.2.1) * n), Int.floor ((1 : ℚ) * n)) := by
    unfold splitIndices; rw [hbs]
  have hz : Int.floor ((0 : ℚ) * n) = 0 := by
    rw [zero_mul, Int.floor_zero]
  have ho : Int.floor ((1 : ℚ) * n) = (n : ℤ) := by
    rw [one_mul, Int.floor_natCast]
  have hfa0 : 0 ≤ Int.floor (s.1 * n) := Int.floor_nonneg.mpr (by positivity)
  have hfab : Int.floor (s.1 * n) ≤ Int.floor ((s.1 + s.2.1) * n) :=
    Int.floor_le_floor (mul_le_mul_of_nonneg_right (by linarith) hnn)
  have hfbn : Int.floor ((s.1 + s.2.1) * n) ≤ (n : ℤ) := by
    have := Int.floor_le_floor (mul_le_mul_of_nonneg_right hs12le hnn)
    rwa [ho] at this
  have hfb0 : 0 ≤ Int.floor ((s.1 + s.2.1) * n) := le_trans hfa0 hfab
  -- natural-number cuts
  have hpa : pyIdx n (Int.floor (s.1 * n)) = (Int.floor (s.1 * n)).toNat :=
    pyIdx_eq_toNat hfa0 (le_trans hfab hfbn)
  have hpb : pyIdx n (Int.floor ((s.1 + s.2.1) * n)) = (Int.floor ((s.1 + s.2.1) * n)).toNat :=
    pyIdx_eq_toNat hfb0 hfbn
  have hp0 : pyIdx n (Int.floor ((0 : ℚ) * n)) = 0 := by
    rw [hz, pyIdx_eq_toNat le_rfl (by positivity)]; rfl
  have hpn : pyIdx n (Int.floor ((1 : ℚ) * n)) = n := by
    rw [ho, pyIdx_eq_toNat (by positivity) le_rfl, Int.toNat_natCast]
  refine ⟨?_, ?_, ?_, ?_, ?_, ?_, ?_, ?_, ?_, ?_, ?_⟩
  · unfold constructSlice pySlice
    rw [← hn, hit, hiv, his]
    simp only [hpa, hpb, hp0, hpn]
    have htl : l.take n = l := by rw [hn]; exact List.take_length l
    rw [List.drop_zero, htl]
    exact take_drop_glue l _ _ (by omega)
  · rw [hit, hz]
  · rw [hit, hiv]
  · rw [his, hiv]
  · rw [his, ho]
  · rw [hit]; exact hfa0
  · rw [hit, hiv]; exact hfab
  · rw [hiv]; exact hfbn
  · rw [hit, hiv]
    exact Finset.Ico_disjoint_Ico_consecutive _ _ _
  · rw [hiv, his]
    exact Finset.Ico_disjoint_Ico_consecutive _ _ _
  · rw [hit, his]
    rw [Finset.disjoint_left]
    intro k hk hk2
    rw [Finset.mem_Ico] at hk hk2
    omega

/-- Concrete instantiation of C1: splits (1/2, 1/4, 1/4) on a 4-element
manifest, whose train slice is the first two elements. -/
theorem claim_C1_witness :
    constructSlice "train" ((1 : ℚ)/2, (1 : ℚ)/4, (1 : ℚ)/4) [0, 1, 2, 3]
      ++ constructSlice "val" ((1 : ℚ)/2, (1 : ℚ)/4, (1 : ℚ)/4) [0, 1, 2, 3]
      ++ constructSlice "test" ((1 : ℚ)/2, (1 : ℚ)/4, (1 : ℚ)/4) [0, 1, 2, 3]
      = [0, 1, 2, 3] :=
  (claim_C1 [0, 1, 2, 3] ((1 : ℚ)/2, (1 : ℚ)/4, (1 : ℚ)/4)
    (by norm_num) (by norm_num) (by norm_num) (by norm_num)).1

/-- Claim C6: every constructor asserts `sum(splits) == 1`; with a valid
split name, construction fails with an assertion error exactly when the
proportions do not sum to 1, and succeeds when they do. -/
theorem claim_C6 (basedir path : String) (split : String) (s : ℚ × ℚ × ℚ)
    (mn mx cr res : ℕ) (fp : ℚ) (meta : List MetaRow)
    (seedsJson : List (String × List ℕ)) (hv : splitValid split) :
    (s.1 + s.2.1 + s.2.2 ≠ 1 →
      initEpic basedir split s mn mx cr fp meta = .error .assertError
      ∧ initEdit path split s mn mx cr fp seedsJson = .error .assertError
      ∧ initEval path split s res seedsJson = .error .assertError)
    ∧ (s.1 + s.2.1 + s.2.2 = 1 →
      (∃ st, initEpic basedir split s mn mx cr fp meta = .ok st)
      ∧ (∃ st, initEdit path split s mn mx cr fp seedsJson = .ok st)
      ∧ (∃ st, initEval path split s res seedsJson = .ok st)) := by
  constructor
  · intro hne
    refine ⟨?_, ?_, ?_⟩ <;>
      simp [initEpic, initEdit, initEval, hv, hne]
  · intro heq
    refine ⟨⟨{ basedir := basedir, min_resize_res := mn, max_resize_res := mx,
               crop_res := cr, flip_prob := fp,
               metadata := constructSlice split s meta }, ?_⟩,
            ⟨{ path := path, min_resize_res := mn, max_resize_res := mx,
               crop_res := cr, flip_prob := fp,
               seeds := constructSlice split s seedsJson }, ?_⟩,
            ⟨{ path := path, res := res,
               seeds := constructSlice split s seedsJson }, ?_⟩⟩ <;>
      simp [initEpic, initEdit, initEval, hv, heq]

/-- Concrete instantiation of C6: with proportions (1/2, 1/4, 1/8) the
`EditDataset` constructor hits the assertion. -/
theorem claim_C6_witness :
    initEdit "p" "train" ((1 : ℚ)/2, (1 : ℚ)/4, (1 : ℚ)/8) 256 256 256 0 []
      = .error .assertError :=
  ((claim_C6 "b" "p" "train" ((1 : ℚ)/2, (1 : ℚ)/4, (1 : ℚ)/8) 256 256 256 256 0 [] []
    (Or.inl rfl)).1 (by norm_num)).2.1

/-- Claim C5: `__len__` and `__getitem__` of all three classes leave the
object state — the stored manifest slice and every configuration field —
unchanged, so repeated `__len__` calls agree. -/
theorem claim_C5 (de : EpicState) (dd : EditState) (dv : EvalState)
    (fse : EpicFS) (fss : SeedFS) (resize : ℕ → ImageHWC → ImageHWC)
    (i : ℕ) (rng : Rng) :
    (getitemEpicM de fse resize i rng).2 = de
    ∧ (getitemEditM dd fss resize i rng).2 = dd
    ∧ (getitemEvalM dv fss resize i rng).2 = dv
    ∧ (lenEpicM de).2 = de ∧ (lenEditM dd).2 = dd ∧ (lenEvalM dv).2 = dv
    ∧ (lenEpicM (getitemEpicM de fse resize i rng).2).1 = (lenEpicM de).1
    ∧ (lenEditM (getitemEditM dd fss resize i rng).2).1 = (lenEditM dd).1
    ∧ (lenEvalM (getitemEvalM dv fss resize i rng).2).1 = (lenEvalM dv).1 :=
  ⟨rfl, rfl, rfl, rfl, rfl, rfl, rfl, rfl, rfl⟩

/-- Claim C9: for a frame index of at most 10 decimal digits,
`_index_to_img_fn` returns `frame_` ++ (index zero-padded to exactly 10
digits) ++ `.jpg`; and `__getitem__` reads both the start-frame and the
stop-frame image at paths built with this function, so its result depends
on the filesystem only through those two paths. -/
theorem claim_C9 (n : ℕ) (hle : (Nat.repr n).length ≤ LENGTH_FRAME_ID) :
    indexToImgFn n = "frame_" ++ zfill LENGTH_FRAME_ID (Nat.repr n) ++ ".jpg"
    ∧ (zfill LENGTH_FRAME_ID (Nat.repr n)).length = LENGTH_FRAME_ID
    ∧ ∀ (d : EpicState) (fs fs' : EpicFS) (resize : ℕ → ImageHWC → ImageHWC)
        (index : ℕ) (rng : Rng) (h : index < d.metadata.length),
        fs.image (d.basedir ++ "/" ++ (d.metadata.get ⟨index, h⟩).part ++ "/"
            ++ "agentago_frames" ++ "/" ++ (d.metadata.get ⟨index, h⟩).clip
            ++ "/" ++ indexToImgFn (d.metadata.get ⟨index, h⟩).start)
          = fs'.image (d.basedir ++ "/" ++ (d.metadata.get ⟨index, h⟩).part ++ "/"
            ++ "agentago_frames" ++ "/" ++ (d.metadata.get ⟨index, h⟩).clip
            ++ "/" ++ indexToImgFn (d.metadata.get ⟨index, h⟩).start) →
        fs.image (d.basedir ++ "/" ++ (d.metadata.get ⟨index, h⟩).part ++ "/"
            ++ "agentago_frames" ++ "/" ++ (d.metadata.get ⟨index, h⟩).clip
            ++ "/" ++ indexToImgFn (d.metadata.get ⟨index, h⟩).stop)
          = fs'.image (d.basedir ++ "/" ++ (d.metadata.get ⟨index, h⟩).part ++ "/"
            ++ "agentago_frames" ++ "/" ++ (d.metadata.get ⟨index, h⟩).clip
            ++ "/" ++ indexToImgFn (d.metadata.get ⟨index, h⟩).stop) →
        getitemEpic d fs resize index rng = getitemEpic d fs' resize index rng := by
  refine ⟨rfl, ?_, ?_⟩
  · simp only [zfill, String.length_append, String.length_mk,
      List.length_replicate, LENGTH_FRAME_ID] at *
    omega
  · intro d fs fs' resize index rng h h0 h1
    unfold getitemEpic
    rw [dif_pos h, dif_pos h]
    dsimp only
    rw [h0, h1]

/-- Concrete instantiation of C9: frame 37 maps to `frame_0000000037.jpg`. -/
theorem claim_C9_witness :
    indexToImgFn 37 = "frame_" ++ zfill LENGTH_FRAME_ID (Nat.repr 37) ++ ".jpg"
    ∧ (zfill LENGTH_FRAME_ID (Nat.repr 37)).length = LENGTH_FRAME_ID :=
  ⟨(claim_C9 37 (by decide)).1, (claim_C9 37 (by decide)).2.1⟩

/-- `torch.randint(k, k + 1, ())` succeeds and always returns `k`. -/
theorem randint_succ_self (k r : ℕ) : randint k (k + 1) r = .ok k := by
  unfold randint
  rw [if_neg (by omega)]
  simp [Nat.mod_one]

/-- Full inversion of `EditDataset.__getitem__`. -/
theorem getitemEdit_ok_iff (d : EditState) (fs : SeedFS)
    (resize : ℕ → ImageHWC → ImageHWC) (i : ℕ) (rng : Rng) (o : EditSample) :
    getitemEdit d fs resize i rng = .ok o ↔
    ∃ (h : i < d.seeds.length) (sIdx reize_res : ℕ) (pair : TensorCHW × TensorCHW),
      randint 0 (d.seeds.get ⟨i, h⟩).2.length rng.seedChoice = .ok sIdx
      ∧ randint d.min_resize_res (d.max_resize_res + 1) rng.resizeChoice = .ok reize_res
      ∧ transformPair d.crop_res d.flip_prob
          (toTensor (resize reize_res
            (fs.image0 (d.seeds.get ⟨i, h⟩).1 ((d.seeds.get ⟨i, h⟩).2.getD sIdx 0))))
          (toTensor (resize reize_res
            (fs.image1 (d.seeds.get ⟨i, h⟩).1 ((d.seeds.get ⟨i, h⟩).2.getD sIdx 0))))
          rng = .ok pair
      ∧ o = { edited := pair.2,
              edit := { c_concat := pair.1,
                        c_crossattn := fs.promptEdit (d.seeds.get ⟨i, h⟩).1 } } := by
  constructor
  · intro hok
    unfold getitemEdit at hok
    split at hok
    case isTrue h =>
      dsimp only at hok
      rw [exceptBind_ok] at hok
      obtain ⟨sIdx, hs, hok⟩ := hok
      rw [exceptBind_ok] at hok
      obtain ⟨rres, hr, hok⟩ := hok
      rw [exceptBind_ok] at hok
      obtain ⟨pair, hp, hok⟩ := hok
      refine ⟨h, sIdx, rres, pair, hs, hr, hp, ?_⟩
      simpa [pure, Except.pure] using hok.symm
    case isFalse h => exact absurd hok (by simp)
  · rintro ⟨h, sIdx, rres, pair, hs, hr, hp, rfl⟩
    unfold getitemEdit
    rw [dif_pos h]
    dsimp only
    rw [exceptBind_ok]
    refine ⟨sIdx, hs, ?_⟩
    rw [exceptBind_ok]
    refine ⟨rres, hr, ?_⟩
    rw [exceptBind_ok]
    exact ⟨pair, hp, rfl⟩

/-- Full inversion of `EpicEditDataset.__getitem__`. -/
theorem getitemEpic_ok_iff (d : EpicState) (fs : EpicFS)
    (resize : ℕ → ImageHWC → ImageHWC) (index : ℕ) (rng : Rng) (o : EditSample) :
    getitemEpic d fs resize index rng = .ok o ↔
    ∃ (h : index < d.metadata.length) (reize_res : ℕ) (pair : TensorCHW × TensorCHW),
      randint d.min_resize_res (d.max_resize_res + 1) rng.resizeChoice = .ok reize_res
      ∧ transformPair d.crop_res d.flip_prob
          (toTensor (resize reize_res (fs.image
            (d.basedir ++ "/" ++ (d.metadata.get ⟨index, h⟩).part ++ "/"
              ++ "agentago_frames" ++ "/" ++ (d.metadata.get ⟨index, h⟩).clip
              ++ "/" ++ indexToImgFn (d.metadata.get ⟨index, h⟩).start))))
          (toTensor (resize reize_res (fs.image
            (d.basedir ++ "/" ++ (d.metadata.get ⟨index, h⟩).part ++ "/"
              ++ "agentago_frames" ++ "/" ++ (d.metadata.get ⟨index, h⟩).clip
              ++ "/" ++ indexToImgFn (d.metadata.get ⟨index, h⟩).stop))))
          rng = .ok pair
      ∧ o = { edited := pair.2,
              edit := { c_concat := pair.1,
                        c_crossattn := (d.metadata.get ⟨index, h⟩).narration } } := by
  constructor
  · intro hok
    unfold getitemEpic at hok
    split at hok
    case isTrue h =>
      dsimp only at hok
      rw [exceptBind_ok] at hok
      obtain ⟨rres, hr, hok⟩ := hok
      rw [exceptBind_ok] at hok
      obtain ⟨pair, hp, hok⟩ := hok
      refine ⟨h, rres, pair, hr, hp, ?_⟩
      simpa [pure, Except.pure] using hok.symm
    case isFalse h => exact absurd hok (by simp)
  · rintro ⟨h, rres, pair, hr, hp, rfl⟩
    unfold getitemEpic
    rw [dif_pos h]
    dsimp only
    rw [exceptBind_ok]
    refine ⟨rres, hr, ?_⟩
    rw [exceptBind_ok]
    exact ⟨pair, hp, rfl⟩

/-- Full inversion of `EditDatasetEval.__getitem__`. -/
theorem getitemEval_ok_iff (d : EvalState) (fs : SeedFS)
    (resize : ℕ → ImageHWC → ImageHWC) (i : ℕ) (rng : Rng) (o : EvalSample) :
    getitemEval d fs resize i rng = .ok o ↔
    ∃ (h : i < d.seeds.length) (sIdx : ℕ),
      randint 0 (d.seeds.get ⟨i, h⟩).2.length rng.seedChoice = .ok sIdx
      ∧ o = { image_0 := toTensor (resize d.res
                (fs.image0 (d.seeds.get ⟨i, h⟩).1 ((d.seeds.get ⟨i, h⟩).2.getD sIdx 0))),
              input_prompt := fs.promptInput (d.seeds.get ⟨i, h⟩).1,
              edit := fs.promptEdit (d.seeds.get ⟨i, h⟩).1,
              output_prompt := fs.promptOutput (d.seeds.get ⟨i, h⟩).1 } := by
  constructor
  · intro hok
    unfold getitemEval at hok
    split at hok
    case isTrue h =>
      dsimp only at hok
      rw [exceptBind_ok] at hok
      obtain ⟨sIdx, hs, hok⟩ := hok
      rw [randint_succ_self, exceptBind_ok] at hok
      obtain ⟨rres, hr, hok⟩ := hok
      rw [Except.ok.injEq] at hr
      subst hr
      refine ⟨h, sIdx, hs, ?_⟩
      simpa [pure, Except.pure] using hok.symm
    case isFalse h => exact absurd hok (by simp)
  · rintro ⟨h, sIdx, hs, rfl⟩
    unfold getitemEval
    rw [dif_pos h]
    dsimp only
    rw [exceptBind_ok]
    refine ⟨sIdx, hs, ?_⟩
    rw [randint_succ_self, exceptBind_ok]
    exact ⟨d.res, rfl, rfl⟩

/-- Claim C7: `EditDatasetEval.__getitem__` returns only the source image
plus prompt text — a record of the normalized source tensor (`image_0`) and
the three prompt strings (`input_prompt`, `edit`, `output_prompt`) — and its
result never depends on the edited (after) image `{seed}_1.jpg`. -/
theorem claim_C7 (d : EvalState) (fs fs' : SeedFS)
    (resize : ℕ → ImageHWC → ImageHWC) (i : ℕ) (rng : Rng)
    (hpe : fs.promptEdit = fs'.promptEdit) (hpi : fs.promptInput = fs'.promptInput)
    (hpo : fs.promptOutput = fs'.promptOutput) (hi0 : fs.image0 = fs'.image0) :
    getitemEval d fs resize i rng = getitemEval d fs' resize i rng
    ∧ ∀ o, getitemEval d fs resize i rng = .ok o →
      ∃ (h : i < d.seeds.length) (sIdx : ℕ),
        randint 0 (d.seeds.get ⟨i, h⟩).2.length rng.seedChoice = .ok sIdx
        ∧ o = { image_0 := toTensor (resize d.res
                  (fs.image0 (d.seeds.get ⟨i, h⟩).1 ((d.seeds.get ⟨i, h⟩).2.getD sIdx 0))),
                input_prompt := fs.promptInput (d.seeds.get ⟨i, h⟩).1,
                edit := fs.promptEdit (d.seeds.get ⟨i, h⟩).1,
                output_prompt := fs.promptOutput (d.seeds.get ⟨i, h⟩).1 } := by
  constructor
  · obtain ⟨pe, pi, po, i0, i1⟩ := fs
    obtain ⟨pe', pi', po', i0', i1'⟩ := fs'
    dsimp only at hpe hpi hpo hi0
    subst hpe hpi hpo hi0
    rfl
  · intro o hok
    exact (getitemEval_ok_iff d fs resize i rng o).mp hok

/-- Concrete instantiation of C7: two filesystems differing only in the
after-images give identical `EditDatasetEval` items. -/
theorem claim_C7_witness :
    getitemEval sampleEvalState sampleSeedFS (constResize 1) 0 sampleRng
      = getitemEval sampleEvalState sampleSeedFSAlt (constResize 1) 0 sampleRng :=
  (claim_C7 sampleEvalState sampleSeedFS sampleSeedFSAlt (constResize 1) 0 sampleRng
    rfl rfl rfl rfl).1

/-- A nonempty grid has `c` channels. -/
theorem numChannels_of_grid {h w c : ℕ} {img : ImageHWC} (hg : isGrid h w c img)
    (hh : 1 ≤ h) (hw : 1 ≤ w) : numChannels img = c := by
  obtain ⟨hl, hrows⟩ := hg
  cases img with
  | nil => simp at hl; omega
  | cons row rest =>
    obtain ⟨hrl, hpxs⟩ := hrows row (List.mem_cons_self _ _)
    cases row with
    | nil => simp at hrl; omega
    | cons px prest =>
      simpa [numChannels] using hpxs px (List.mem_cons_self _ _)

/-- The channel count of the rearranged tensor. -/
theorem toTensor_length (img : ImageHWC) : (toTensor img).length = numChannels img := by
  simp [toTensor, transposeHWC]

/-- Height and width of the rearranged tensor of a nonempty square grid. -/
theorem toTensor_head_dims {r c : ℕ} {img : ImageHWC} (hg : isGrid r r c img)
    (hr : 1 ≤ r) (hc : 1 ≤ c) :
    tensorHeight (toTensor img) = r ∧ tensorWidth (toTensor img) = r := by
  have hnc : numChannels img = c := numChannels_of_grid hg hr hr
  obtain ⟨hl, hrows⟩ := hg
  obtain ⟨c', rfl⟩ : ∃ c', c = c' + 1 := ⟨c - 1, by omega⟩
  cases img with
  | nil => simp at hl; omega
  | cons row rest =>
    have hrowlen := (hrows row (List.mem_cons_self _ _)).1
    constructor
    · simp [tensorHeight, toTensor, transposeHWC, hnc, List.range_succ_eq_map]
      simpa using hl
    · simp [tensorWidth, toTensor, transposeHWC, hnc, List.range_succ_eq_map]
      simpa using hrowlen

/-- Claim C10: the resolution sampled by `torch.randint(res, res + 1, ())`
equals `res` for every random draw, the item returned by
`EditDatasetEval.__getitem__` does not depend on the resize draw, and the
returned source tensor is exactly `res × res`. -/
theorem claim_C10 (d : EvalState) (fs : SeedFS) (resize : ℕ → ImageHWC → ImageHWC)
    (i : ℕ) (rng : Rng) (c : ℕ) (hdims : resizeDims c resize)
    (hc : 1 ≤ c) (hres : 1 ≤ d.res) :
    (∀ r, randint d.res (d.res + 1) r = .ok d.res)
    ∧ (∀ x y, getitemEval d fs resize i { rng with resizeChoice := x }
        = getitemEval d fs resize i { rng with resizeChoice := y })
    ∧ ∀ o, getitemEval d fs resize i rng = .ok o →
        o.image_0.length = c ∧ tensorHeight o.image_0 = d.res
        ∧ tensorWidth o.image_0 = d.res := by
  refine ⟨fun r => randint_succ_self d.res r, ?_, ?_⟩
  · intro x y
    by_cases h : i < d.seeds.length
    · unfold getitemEval
      rw [dif_pos h, dif_pos h]
      dsimp only
      simp only [randint_succ_self]
    · simp [getitemEval, h]
  · intro o hok
    obtain ⟨h, sIdx, hs, rfl⟩ := (getitemEval_ok_iff d fs resize i rng o).mp hok
    have hg := hdims d.res
      (fs.image0 (d.seeds.get ⟨i, h⟩).1 ((d.seeds.get ⟨i, h⟩).2.getD sIdx 0))
    have hd := toTensor_head_dims hg hres hc
    refine ⟨?_, hd.1, hd.2⟩
    rw [toTensor_length, numChannels_of_grid hg hres hres]

/-- Concrete instantiation of C10: with `res = 1` the sampled resolution is
1 and the returned tensor is 1 × 1. -/
theorem claim_C10_witness :
    randint sampleEvalState.res (sampleEvalState.res + 1) 5 = .ok sampleEvalState.res
    ∧ getitemEval sampleEvalState sampleSeedFS (constResize 1) 0
        { sampleRng with resizeChoice := 3 }
      = getitemEval sampleEvalState sampleSeedFS (constResize 1) 0
        { sampleRng with resizeChoice := 4 } := by
  have h := claim_C10 sampleEvalState sampleSeedFS (constResize 1) 0 sampleRng 1
    (fun r img => by simp [constResize, constImg, isGrid, List.mem_replicate])
    le_rfl le_rfl
  exact ⟨h.1 5, h.2.1 3 4⟩

/-- The concrete `constResize` returns uint8 data. -/
theorem constResize_bytes (c : ℕ) : resizeBytes (constResize c) := by
  intro r img row hrow px hpx v hv
  have h1 := List.eq_of_mem_replicate hrow
  subst h1
  have h2 := List.eq_of_mem_replicate hpx
  subst h2
  have h3 := List.eq_of_mem_replicate hv
  subst h3
  omega

/-- The concrete `constResize` is shape-correct. -/
theorem constResize_dims (c : ℕ) : resizeDims c (constResize c) := by
  intro r img
  refine ⟨by simp [constResize, constImg], ?_⟩
  intro row hrow
  have h1 := List.eq_of_mem_replicate hrow
  subst h1
  refine ⟨by simp, ?_⟩
  intro px hpx
  have h2 := List.eq_of_mem_replicate hpx
  subst h2
  simp

/-- Claim C3: every image tensor returned by `__getitem__` of any of the
three dataset classes is normalized to `[-1, 1]`: each uint8 value `v` is
mapped to `2*v/255 - 1` (`normPix`), so every element of every returned
tensor lies in `[-1, 1]`. -/
theorem claim_C3 (resize : ℕ → ImageHWC → ImageHWC) (hbytes : resizeBytes resize) :
    (∀ (d : EditState) (fs : SeedFS) (i : ℕ) (rng : Rng) (o : EditSample),
      getitemEdit d fs resize i rng = .ok o →
      tensorAll (fun q => -1 ≤ q ∧ q ≤ 1) o.edited
      ∧ tensorAll (fun q => -1 ≤ q ∧ q ≤ 1) o.edit.c_concat)
    ∧ (∀ (d : EpicState) (fs : EpicFS) (index : ℕ) (rng : Rng) (o : EditSample),
      getitemEpic d fs resize index rng = .ok o →
      tensorAll (fun q => -1 ≤ q ∧ q ≤ 1) o.edited
      ∧ tensorAll (fun q => -1 ≤ q ∧ q ≤ 1) o.edit.c_concat)
    ∧ (∀ (d : EvalState) (fs : SeedFS) (i : ℕ) (rng : Rng) (o : EvalSample),
      getitemEval d fs resize i rng = .ok o →
      tensorAll (fun q => -1 ≤ q ∧ q ≤ 1) o.image_0) := by
  refine ⟨?_, ?_, ?_⟩
  · intro d fs i rng o hok
    obtain ⟨h, sIdx, rres, pair, _, _, hp, rfl⟩ :=
      (getitemEdit_ok_iff d fs resize i rng o).mp hok
    have hres := transformPair_tensorAll
      (tensorAll_toTensor (hbytes rres _)) (tensorAll_toTensor (hbytes rres _)) hp
    exact ⟨hres.2, hres.1⟩
  · intro d fs index rng o hok
    obtain ⟨h, rres, pair, _, hp, rfl⟩ :=
      (getitemEpic_ok_iff d fs resize index rng o).mp hok
    have hres := transformPair_tensorAll
      (tensorAll_toTensor (hbytes rres _)) (tensorAll_toTensor (hbytes rres _)) hp
    exact ⟨hres.2, hres.1⟩
  · intro d fs i rng o hok
    obtain ⟨h, sIdx, _, rfl⟩ := (getitemEval_ok_iff d fs resize i rng o).mp hok
    exact tensorAll_toTensor (hbytes d.res _)

/-- The concrete `EditDataset` item access evaluates to `sampleEditOut`. -/
theorem sampleEdit_ok :
    getitemEdit sampleEditState sampleSeedFS (constResize 1) 0 sampleRng
      = .ok sampleEditOut := by
  simp only [getitemEdit, sampleEditState, sampleSeedFS, sampleRng, sampleEditOut, randint,
    transformPair, constResize, constImg, toTensor, transposeHWC, numChannels, tensorHeight,
    tensorWidth, cropCHW, flipCHW, chunkHalf, Bind.bind, Except.bind, pure, Except.pure]
  norm_num [normPix]

/-- The concrete `EpicEditDataset` item access evaluates to `sampleEpicOut`. -/
theorem sampleEpic_ok :
    getitemEpic sampleEpicState sampleEpicFS (constResize 1) 0 sampleRng
      = .ok sampleEpicOut := by
  simp only [getitemEpic, sampleEpicState, sampleEpicFS, sampleRng, sampleEpicOut, randint,
    transformPair, constResize, constImg, toTensor, transposeHWC, numChannels, tensorHeight,
    tensorWidth, cropCHW, flipCHW, chunkHalf, Bind.bind, Except.bind, pure, Except.pure]
  norm_num [normPix]

/-- The concrete `EditDatasetEval` item access evaluates to `sampleEvalOut`. -/
theorem sampleEval_ok :
    getitemEval sampleEvalState sampleSeedFS (constResize 1) 0 sampleRng
      = .ok sampleEvalOut := by
  simp only [getitemEval, sampleEvalState, sampleSeedFS, sampleRng, sampleEvalOut, randint,
    constResize, constImg, toTensor, transposeHWC, numChannels,
    Bind.bind, Except.bind, pure, Except.pure]
  norm_num [normPix]

/-- Concrete instantiation of C3 on the concrete 1×1 data for all three
classes. -/
theorem claim_C3_witness :
    tensorAll (fun q => -1 ≤ q ∧ q ≤ 1) sampleEditOut.edited
    ∧ tensorAll (fun q => -1 ≤ q ∧ q ≤ 1) sampleEpicOut.edited
    ∧ tensorAll (fun q => -1 ≤ q ∧ q ≤ 1) sampleEvalOut.image_0 :=
  ⟨((claim_C3 (constResize 1) (constResize_bytes 1)).1 sampleEditState sampleSeedFS
      0 sampleRng sampleEditOut sampleEdit_ok).1,
   ((claim_C3 (constResize 1) (constResize_bytes 1)).2.1 sampleEpicState sampleEpicFS
      0 sampleRng sampleEpicOut sampleEpic_ok).1,
   (claim_C3 (constResize 1) (constResize_bytes 1)).2.2 sampleEvalState sampleSeedFS
      0 sampleRng sampleEvalOut sampleEval_ok⟩

/-- Cropping acts channelwise, so it distributes over concatenation. -/
theorem cropCHW_append (top left s : ℕ) (t0 t1 : TensorCHW) :
    cropCHW top left s (t0 ++ t1) = cropCHW top left s t0 ++ cropCHW top left s t1 := by
  simp [cropCHW]

/-- Flipping acts channelwise, so it distributes over concatenation. -/
theorem flipCHW_append (b : Bool) (t0 t1 : TensorCHW) :
    flipCHW b (t0 ++ t1) = flipCHW b t0 ++ flipCHW b t1 := by
  cases b <;> simp [flipCHW, flipH]

/-- Cropping keeps the channel count. -/
theorem length_cropCHW (top left s : ℕ) (t : TensorCHW) :
    (cropCHW top left s t).length = t.length := by
  simp [cropCHW]

/-- Flipping keeps the channel count. -/
theorem length_flipCHW (b : Bool) (t : TensorCHW) :
    (flipCHW b t).length = t.length := by
  cases b <;> simp [flipCHW, flipH]

/-- `torch.chunk(·, 2)` undoes `torch.cat` of two equal-channel tensors. -/
theorem chunkHalf_append {t0 t1 : TensorCHW} (hlen : t0.length = t1.length) :
    chunkHalf (t0 ++ t1) = (t0, t1) := by
  unfold chunkHalf
  have hidx : ((t0 ++ t1).length + 1) / 2 = t0.length := by
    rw [List.length_append]
    omega
  rw [hidx, List.take_left, List.drop_left]

/-- A successful joint transform applies one crop window and one flip
decision to both halves of the concatenation. -/
theorem transformPair_ok_split {crop_res : ℕ} {flip_prob : ℚ} {t0 t1 : TensorCHW}
    {rng : Rng} {pair : TensorCHW × TensorCHW} (hlen : t0.length = t1.length)
    (hok : transformPair crop_res flip_prob t0 t1 rng = .ok pair) :
    ∃ (top left : ℕ) (b : Bool),
      pair.1 = flipCHW b (cropCHW top left crop_res t0)
      ∧ pair.2 = flipCHW b (cropCHW top left crop_res t1) := by
  by_cases hc : tensorHeight (t0 ++ t1) < crop_res ∨ tensorWidth (t0 ++ t1) < crop_res
  · simp [transformPair, hc] at hok
  · simp only [transformPair, hc, if_false] at hok
    rw [Except.ok.injEq] at hok
    subst hok
    refine ⟨rng.cropTopChoice % (tensorHeight (t0 ++ t1) - crop_res + 1),
      rng.cropLeftChoice % (tensorWidth (t0 ++ t1) - crop_res + 1),
      decide (rng.flipdraw < flip_prob), ?_, ?_⟩ <;>
      rw [cropCHW_append, flipCHW_append,
        chunkHalf_append (by rw [length_flipCHW, length_flipCHW,
          length_cropCHW, length_cropCHW, hlen])]

/-- Two same-shape grids have the same channel count. -/
theorem numChannels_eq {r c : ℕ} {a b : ImageHWC} (ha : isGrid r r c a)
    (hb : isGrid r r c b) : numChannels a = numChannels b := by
  rcases Nat.eq_zero_or_pos r with hr | hr
  · obtain rfl : a = [] := List.length_eq_zero.mp (by rw [ha.1, hr])
    obtain rfl : b = [] := List.length_eq_zero.mp (by rw [hb.1, hr])
    rfl
  · rw [numChannels_of_grid ha hr hr, numChannels_of_grid hb hr hr]

/-- Claim C2: in `EpicEditDataset.__getitem__` and `EditDataset.__getitem__`
the random crop and random horizontal flip are applied jointly: for every
item access and every outcome of the random draws there is one crop offset
`(top, left)` and one flip decision `b` such that the returned before- and
after-tensors are exactly that same crop and flip of the two resized
images (the tensors are concatenated, transformed once, and split back). -/
theorem claim_C2 (c : ℕ) (resize : ℕ → ImageHWC → ImageHWC)
    (hdims : resizeDims c resize) :
    (∀ (d : EditState) (fs : SeedFS) (i : ℕ) (rng : Rng) (o : EditSample),
      getitemEdit d fs resize i rng = .ok o →
      ∃ (h : i < d.seeds.length) (sIdx reize_res top left : ℕ) (b : Bool),
        o.edit.c_concat = flipCHW b (cropCHW top left d.crop_res
          (toTensor (resize reize_res
            (fs.image0 (d.seeds.get ⟨i, h⟩).1 ((d.seeds.get ⟨i, h⟩).2.getD sIdx 0)))))
        ∧ o.edited = flipCHW b (cropCHW top left d.crop_res
          (toTensor (resize reize_res
            (fs.image1 (d.seeds.get ⟨i, h⟩).1 ((d.seeds.get ⟨i, h⟩).2.getD sIdx 0))))))
    ∧ (∀ (d : EpicState) (fs : EpicFS) (index : ℕ) (rng : Rng) (o : EditSample),
      getitemEpic d fs resize index rng = .ok o →
      ∃ (h : index < d.metadata.length) (reize_res top left : ℕ) (b : Bool),
        o.edit.c_concat = flipCHW b (cropCHW top left d.crop_res
          (toTensor (resize reize_res (fs.image
            (d.basedir ++ "/" ++ (d.metadata.get ⟨index, h⟩).part ++ "/"
              ++ "agentago_frames" ++ "/" ++ (d.metadata.get ⟨index, h⟩).clip
              ++ "/" ++ indexToImgFn (d.metadata.get ⟨index, h⟩).start)))))
        ∧ o.edited = flipCHW b (cropCHW top left d.crop_res
          (toTensor (resize reize_res (fs.image
            (d.basedir ++ "/" ++ (d.metadata.get ⟨index, h⟩).part ++ "/"
              ++ "agentago_frames" ++ "/" ++ (d.metadata.get ⟨index, h⟩).clip
              ++ "/" ++ indexToImgFn (d.metadata.get ⟨index, h⟩).stop)))))) := by
  constructor
  · intro d fs i rng o hok
    obtain ⟨h, sIdx, rres, pair, _, _, hp, rfl⟩ :=
      (getitemEdit_ok_iff d fs resize i rng o).mp hok
    have hlen : (toTensor (resize rres
        (fs.image0 (d.seeds.get ⟨i, h⟩).1 ((d.seeds.get ⟨i, h⟩).2.getD sIdx 0)))).length
        = (toTensor (resize rres
        (fs.image1 (d.seeds.get ⟨i, h⟩).1 ((d.seeds.get ⟨i, h⟩).2.getD sIdx 0)))).length := by
      rw [toTensor_length, toTensor_length]
      exact numChannels_eq (hdims rres _) (hdims rres _)
    obtain ⟨top, left, b, h1, h2⟩ := transformPair_ok_split hlen hp
    exact ⟨h, sIdx, rres, top, left, b, h1, h2⟩
  · intro d fs index rng o hok
    obtain ⟨h, rres, pair, _, hp, rfl⟩ :=
      (getitemEpic_ok_iff d fs resize index rng o).mp hok
    have hlen : (toTensor (resize rres (fs.image
        (d.basedir ++ "/" ++ (d.metadata.get ⟨index, h⟩).part ++ "/"
          ++ "agentago_frames" ++ "/" ++ (d.metadata.get ⟨index, h⟩).clip
          ++ "/" ++ indexToImgFn (d.metadata.get ⟨index, h⟩).start)))).length
        = (toTensor (resize rres (fs.image
        (d.basedir ++ "/" ++ (d.metadata.get ⟨index, h⟩).part ++ "/"
          ++ "agentago_frames" ++ "/" ++ (d.metadata.get ⟨index, h⟩).clip
          ++ "/" ++ indexToImgFn (d.metadata.get ⟨index, h⟩).stop)))).length := by
      rw [toTensor_length, toTensor_length]
      exact numChannels_eq (hdims rres _) (hdims rres _)
    obtain ⟨top, left, b, h1, h2⟩ := transformPair_ok_split hlen hp
    exact ⟨h, rres, top, left, b, h1, h2⟩

/-- Concrete instantiation of C2 on the concrete 1×1 `EditDataset` item. -/
theorem claim_C2_witness :
    ∃ (h : (0 : ℕ) < sampleEditState.seeds.length)
      (sIdx reize_res top left : ℕ) (b : Bool),
      sampleEditOut.edit.c_concat = flipCHW b (cropCHW top left sampleEditState.crop_res
        (toTensor (constResize 1 reize_res
          (sampleSeedFS.image0 (sampleEditState.seeds.get ⟨0, h⟩).1
            ((sampleEditState.seeds.get ⟨0, h⟩).2.getD sIdx 0)))))
      ∧ sampleEditOut.edited = flipCHW b (cropCHW top left sampleEditState.crop_res
        (toTensor (constResize 1 reize_res
          (sampleSeedFS.image1 (sampleEditState.seeds.get ⟨0, h⟩).1
            ((sampleEditState.seeds.get ⟨0, h⟩).2.getD sIdx 0))))) :=
  (claim_C2 1 (constResize 1) (constResize_dims 1)).1 sampleEditState sampleSeedFS
    0 sampleRng sampleEditOut sampleEdit_ok

/-- Claim C8: `EpicEditDataset.__getitem__` and `EditDataset.__getitem__`
return the paired before/after images and the text instruction as a record
whose `edited` key holds the after-image tensor (second chunk of the joint
transform) and whose `edit` key holds the before-image tensor under
`c_concat` (first chunk) and the narration / edit prompt under
`c_crossattn`. -/
theorem claim_C8 :
    (∀ (d : EditState) (fs : SeedFS) (resize : ℕ → ImageHWC → ImageHWC)
      (i : ℕ) (rng : Rng) (o : EditSample),
      getitemEdit d fs resize i rng = .ok o →
      ∃ (h : i < d.seeds.length) (sIdx reize_res : ℕ) (pair : TensorCHW × TensorCHW),
        transformPair d.crop_res d.flip_prob
          (toTensor (resize reize_res
            (fs.image0 (d.seeds.get ⟨i, h⟩).1 ((d.seeds.get ⟨i, h⟩).2.getD sIdx 0))))
          (toTensor (resize reize_res
            (fs.image1 (d.seeds.get ⟨i, h⟩).1 ((d.seeds.get ⟨i, h⟩).2.getD sIdx 0))))
          rng = .ok pair
        ∧ o.edited = pair.2
        ∧ o.edit.c_concat = pair.1
        ∧ o.edit.c_crossattn = fs.promptEdit (d.seeds.get ⟨i, h⟩).1)
    ∧ (∀ (d : EpicState) (fs : EpicFS) (resize : ℕ → ImageHWC → ImageHWC)
      (index : ℕ) (rng : Rng) (o : EditSample),
      getitemEpic d fs resize index rng = .ok o →
      ∃ (h : index < d.metadata.length) (reize_res : ℕ) (pair : TensorCHW × TensorCHW),
        transformPair d.crop_res d.flip_prob
          (toTensor (resize reize_res (fs.image
            (d.basedir ++ "/" ++ (d.metadata.get ⟨index, h⟩).part ++ "/"
              ++ "agentago_frames" ++ "/" ++ (d.metadata.get ⟨index, h⟩).clip
              ++ "/" ++ indexToImgFn (d.metadata.get ⟨index, h⟩).start))))
          (toTensor (resize reize_res (fs.image
            (d.basedir ++ "/" ++ (d.metadata.get ⟨index, h⟩).part ++ "/"
              ++ "agentago_frames" ++ "/" ++ (d.metadata.get ⟨index, h⟩).clip
              ++ "/" ++ indexToImgFn (d.metadata.get ⟨index, h⟩).stop))))
          rng = .ok pair
        ∧ o.edited = pair.2
        ∧ o.edit.c_concat = pair.1
        ∧ o.edit.c_crossattn = (d.metadata.get ⟨index, h⟩).narration) := by
  constructor
  · intro d fs resize i rng o hok
    obtain ⟨h, sIdx, rres, pair, _, _, hp, rfl⟩ :=
      (getitemEdit_ok_iff d fs resize i rng o).mp hok
    exact ⟨h, sIdx, rres, pair, hp, rfl, rfl, rfl⟩
  · intro d fs resize index rng o hok
    obtain ⟨h, rres, pair, _, hp, rfl⟩ :=
      (getitemEpic_ok_iff d fs resize index rng o).mp hok
    exact ⟨h, rres, pair, hp, rfl, rfl, rfl⟩

/-- Concrete instantiation of C8 on the concrete 1×1 `EditDataset` item. -/
theorem claim_C8_witness :
    ∃ (h : (0 : ℕ) < sampleEditState.seeds.length)
      (sIdx reize_res : ℕ) (pair : TensorCHW × TensorCHW),
      transformPair sampleEditState.crop_res sampleEditState.flip_prob
        (toTensor (constResize 1 reize_res
          (sampleSeedFS.image0 (sampleEditState.seeds.get ⟨0, h⟩).1
            ((sampleEditState.seeds.get ⟨0, h⟩).2.getD sIdx 0))))
        (toTensor (constResize 1 reize_res
          (sampleSeedFS.image1 (sampleEditState.seeds.get ⟨0, h⟩).1
            ((sampleEditState.seeds.get ⟨0, h⟩).2.getD sIdx 0))))
        sampleRng = .ok pair
      ∧ sampleEditOut.edited = pair.2
      ∧ sampleEditOut.edit.c_concat = pair.1
      ∧ sampleEditOut.edit.c_crossattn
          = sampleSeedFS.promptEdit (sampleEditState.seeds.get ⟨0, h⟩).1 :=
  claim_C8.1 sampleEditState sampleSeedFS (constResize 1) 0 sampleRng
    sampleEditOut sampleEdit_ok

/-- Height and width of a concatenation are read off the first tensor. -/
theorem tensorHW_append_left (t0 t1 : TensorCHW) (h : t0 ≠ []) :
    tensorHeight (t0 ++ t1) = tensorHeight t0
    ∧ tensorWidth (t0 ++ t1) = tensorWidth t0 := by
  cases t0 with
  | nil => exact absurd rfl h
  | cons ch rest => simp [tensorHeight, tensorWidth]

/-- Counterexample to claim C4 as stated: with `crop_res = 3` and resize
resolution 2, `EditDataset.__getitem__(0)` raises the `RandomCrop` error
even though every referenced file exists and the index is valid. -/
theorem claim_C4_counterexample :
    getitemEdit cropFailState sampleSeedFS (constResize 1) 0 sampleRng
      = .error .cropError := by
  simp only [getitemEdit, cropFailState, sampleSeedFS, sampleRng, randint, transformPair,
    constResize, constImg, toTensor, transposeHWC, numChannels, tensorHeight, tensorWidth,
    Bind.bind, Except.bind, pure, Except.pure]
  simp [List.replicate]

/-- The joint transform succeeds whenever the resized images are nonempty
square grids at least as large as the crop size. -/
theorem transformPair_succeeds (c crop rres : ℕ) (fp : ℚ) (imgA imgB : ImageHWC)
    (rng : Rng) (hA : isGrid rres rres c imgA) (hc : 1 ≤ c) (hr1 : 1 ≤ rres)
    (hcrop : crop ≤ rres) :
    ∃ pair, transformPair crop fp (toTensor imgA) (toTensor imgB) rng = .ok pair := by
  have hlen : (toTensor imgA).length = c := by
    rw [toTensor_length, numChannels_of_grid hA hr1 hr1]
  have hne : toTensor imgA ≠ [] := by
    intro hnil
    rw [hnil] at hlen
    simp at hlen
    omega
  have hH := toTensor_head_dims hA hr1 hc
  have happ := tensorHW_append_left (toTensor imgA) (toTensor imgB) hne
  have hcond : ¬(tensorHeight (toTensor imgA ++ toTensor imgB) < crop
      ∨ tensorWidth (toTensor imgA ++ toTensor imgB) < crop) := by
    rw [happ.1, happ.2, hH.1, hH.2]
    omega
  refine ⟨chunkHalf (flipCHW (decide (rng.flipdraw < fp))
    (cropCHW (rng.cropTopChoice % (tensorHeight (toTensor imgA ++ toTensor imgB) - crop + 1))
      (rng.cropLeftChoice % (tensorWidth (toTensor imgA ++ toTensor imgB) - crop + 1))
      crop (toTensor imgA ++ toTensor imgB))), ?_⟩
  unfold transformPair
  rw [if_neg hcond]

/-- Claim C4 (amended): beyond missing files, item access can also fail when
`crop_res` exceeds the sampled resize resolution (see the counterexample);
provided the index is in range, the sample's seed list is nonempty,
`min_resize_res ≤ max_resize_res` and `1 ≤ crop_res ≤ min_resize_res`, no
error is raised by any of the three classes. -/
theorem claim_C4 (c : ℕ) (resize : ℕ → ImageHWC → ImageHWC)
    (hdims : resizeDims c resize) (hc : 1 ≤ c) :
    (∀ (d : EditState) (fs : SeedFS) (i : ℕ) (rng : Rng) (h : i < d.seeds.length),
      (d.seeds.get ⟨i, h⟩).2 ≠ [] →
      d.min_resize_res ≤ d.max_resize_res →
      1 ≤ d.crop_res → d.crop_res ≤ d.min_resize_res →
      ∃ o, getitemEdit d fs resize i rng = .ok o)
    ∧ (∀ (d : EpicState) (fs : EpicFS) (index : ℕ) (rng : Rng),
      index < d.metadata.length →
      d.min_resize_res ≤ d.max_resize_res →
      1 ≤ d.crop_res → d.crop_res ≤ d.min_resize_res →
      ∃ o, getitemEpic d fs resize index rng = .ok o)
    ∧ (∀ (d : EvalState) (fs : SeedFS) (i : ℕ) (rng : Rng) (h : i < d.seeds.length),
      (d.seeds.get ⟨i, h⟩).2 ≠ [] →
      ∃ o, getitemEval d fs resize i rng = .ok o) := by
  refine ⟨?_, ?_, ?_⟩
  · intro d fs i rng h hne hminmax hcrop1 hcropmin
    have hlen0 : (d.seeds.get ⟨i, h⟩).2.length ≠ 0 :=
      fun hz => hne (List.length_eq_zero.mp hz)
    have hs : randint 0 (d.seeds.get ⟨i, h⟩).2.length rng.seedChoice
        = .ok (0 + rng.seedChoice % ((d.seeds.get ⟨i, h⟩).2.length - 0)) := by
      unfold randint
      rw [if_neg (by omega)]
    have hr : randint d.min_resize_res (d.max_resize_res + 1) rng.resizeChoice
        = .ok (d.min_resize_res
            + rng.resizeChoice % (d.max_resize_res + 1 - d.min_resize_res)) := by
      unfold randint
      rw [if_neg (by omega)]
    have hr1 : 1 ≤ d.min_resize_res
        + rng.resizeChoice % (d.max_resize_res + 1 - d.min_resize_res) := by omega
    have hcr : d.crop_res ≤ d.min_resize_res
        + rng.resizeChoice % (d.max_resize_res + 1 - d.min_resize_res) := by omega
    obtain ⟨pair, hp⟩ := transformPair_succeeds c d.crop_res
      (d.min_resize_res + rng.resizeChoice % (d.max_resize_res + 1 - d.min_resize_res))
      d.flip_prob
      (resize (d.min_resize_res
          + rng.resizeChoice % (d.max_resize_res + 1 - d.min_resize_res))
        (fs.image0 (d.seeds.get ⟨i, h⟩).1
          ((d.seeds.get ⟨i, h⟩).2.getD (0 + rng.seedChoice
            % ((d.seeds.get ⟨i, h⟩).2.length - 0)) 0)))
      (resize (d.min_resize_res
          + rng.resizeChoice % (d.max_resize_res + 1 - d.min_resize_res))
        (fs.image1 (d.seeds.get ⟨i, h⟩).1
          ((d.seeds.get ⟨i, h⟩).2.getD (0 + rng.seedChoice
            % ((d.seeds.get ⟨i, h⟩).2.length - 0)) 0)))
      rng
      (hdims _ (fs.image0 (d.seeds.get ⟨i, h⟩).1
          ((d.seeds.get ⟨i, h⟩).2.getD (0 + rng.seedChoice
            % ((d.seeds.get ⟨i, h⟩).2.length - 0)) 0)))
      hc hr1 hcr
    exact ⟨_, (getitemEdit_ok_iff d fs resize i rng _).mpr
      ⟨h, _, _, pair, hs, hr, hp, rfl⟩⟩
  · intro d fs index rng h hminmax hcrop1 hcropmin
    have hr : randint d.min_resize_res (d.max_resize_res + 1) rng.resizeChoice
        = .ok (d.min_resize_res
            + rng.resizeChoice % (d.max_resize_res + 1 - d.min_resize_res)) := by
      unfold randint
      rw [if_neg (by omega)]
    have hr1 : 1 ≤ d.min_resize_res
        + rng.resizeChoice % (d.max_resize_res + 1 - d.min_resize_res) := by omega
    have hcr : d.crop_res ≤ d.min_resize_res
        + rng.resizeChoice % (d.max_resize_res + 1 - d.min_resize_res) := by omega
    obtain ⟨pair, hp⟩ := transformPair_succeeds c d.crop_res
      (d.min_resize_res + rng.resizeChoice % (d.max_resize_res + 1 - d.min_resize_res))
      d.flip_prob
      (resize (d.min_resize_res
          + rng.resizeChoice % (d.max_resize_res + 1 - d.min_resize_res))
        (fs.image (d.basedir ++ "/" ++ (d.metadata.get ⟨index, h⟩).part ++ "/"
          ++ "agentago_frames" ++ "/" ++ (d.metadata.get ⟨index, h⟩).clip
          ++ "/" ++ indexToImgFn (d.metadata.get ⟨index, h⟩).start)))
      (resize (d.min_resize_res
          + rng.resizeChoice % (d.max_resize_res + 1 - d.min_resize_res))
        (fs.image (d.basedir ++ "/" ++ (d.metadata.get ⟨index, h⟩).part ++ "/"
          ++ "agentago_frames" ++ "/" ++ (d.metadata.get ⟨index, h⟩).clip
          ++ "/" ++ indexToImgFn (d.metadata.get ⟨index, h⟩).stop)))
      rng
      (hdims _ (fs.image (d.basedir ++ "/" ++ (d.metadata.get ⟨index, h⟩).part ++ "/"
          ++ "agentago_frames" ++ "/" ++ (d.metadata.get ⟨index, h⟩).clip
          ++ "/" ++ indexToImgFn (d.metadata.get ⟨index, h⟩).start)))
      hc hr1 hcr
    exact ⟨_, (getitemEpic_ok_iff d fs resize index rng _).mpr
      ⟨h, _, pair, hr, hp, rfl⟩⟩
  · intro d fs i rng h hne
    have hlen0 : (d.seeds.get ⟨i, h⟩).2.length ≠ 0 :=
      fun hz => hne (List.length_eq_zero.mp hz)
    have hs : randint 0 (d.seeds.get ⟨i, h⟩).2.length rng.seedChoice
        = .ok (0 + rng.seedChoice % ((d.seeds.get ⟨i, h⟩).2.length - 0)) := by
      unfold randint
      rw [if_neg (by omega)]
    exact ⟨_, (getitemEval_ok_iff d fs resize i rng _).mpr ⟨h, _, hs, rfl⟩⟩

/-- Concrete instantiation of the amended C4 on all three classes. -/
theorem claim_C4_witness :
    (∃ o, getitemEdit sampleEditState sampleSeedFS (constResize 1) 0 sampleRng = .ok o)
    ∧ (∃ o, getitemEpic sampleEpicState sampleEpicFS (constResize 1) 0 sampleRng = .ok o)
    ∧ (∃ o, getitemEval sampleEvalState sampleSeedFS (constResize 1) 0 sampleRng = .ok o) :=
  ⟨(claim_C4 1 (constResize 1) (constResize_dims 1) le_rfl).1 sampleEditState
      sampleSeedFS 0 sampleRng (by decide) (by decide) (by decide) (by decide) (by decide),
   (claim_C4 1 (constResize 1) (constResize_dims 1) le_rfl).2.1 sampleEpicState
      sampleEpicFS 0 sampleRng (by decide) (by decide) (by decide) (by decide),
   (claim_C4 1 (constResize 1) (constResize_dims 1) le_rfl).2.2 sampleEvalState
      sampleSeedFS 0 sampleRng (by decide) (by decide)⟩
